import Mathlib

/-!
Verification of the height/volume converter in `src/app.py`
(`statefull_resoiver_streamlit`).

The Python code (lines 63-116 of `app.py`) validates a user-entered
height against two acceptance windows, converts between relative and
absolute coordinates, and piecewise-linearly interpolates a cumulative
volume from a fixed calibration table.  We embed that logic shallowly
over `ℚ` (the spec and the claims reason in exact decimal arithmetic)
and prove the claimed properties.
-/

namespace Reservoir

/-- The calibration table `HEIGHT_VOLUME` from `app.py` lines 64-69:
an association list from relative height (metres) to cumulative
volume (cubic metres), in source order. -/
def HEIGHT_VOLUME : List (ℚ × ℚ) :=
  [(0, 0), (1/2, 4027), (1, 11655), (3/2, 27344), (2, 53448), (5/2, 88216),
   (3, 126617), (7/2, 166744), (4, 208327), (9/2, 251136), (5, 295066),
   (11/2, 340074), (6, 386135), (13/2, 433278), (7, 481569), (15/2, 531074),
   (8, 581888), (17/2, 634177)]

/-- Constant `SEA_LEVEL_ZERO = 50.0` (line 70): absolute elevation of the datum. -/
def SEA_LEVEL_ZERO : ℚ := 50

/-- Constant `MAX_RELATIVE_HEIGHT = 8.5` (line 71). -/
def MAX_RELATIVE_HEIGHT : ℚ := 17/2

/-- Constant `MAX_ABSOLUTE_HEIGHT = SEA_LEVEL_ZERO + MAX_RELATIVE_HEIGHT` (line 72). -/
def MAX_ABSOLUTE_HEIGHT : ℚ := SEA_LEVEL_ZERO + MAX_RELATIVE_HEIGHT

/-- Python dict lookup `d[k]` on an association list: first key equal to
`k` wins (keys in `HEIGHT_VOLUME` are distinct, so order is immaterial). -/
def dictGet (d : List (ℚ × ℚ)) (k : ℚ) : Option ℚ :=
  match d with
  | [] => none
  | (a, b) :: rest => if a = k then some b else dictGet rest k

/-- Python's `round(x, 2)`: round to the nearest multiple of 1/100,
ties to even (banker's rounding), as on line 107-108 of `app.py`. -/
def pyRound2 (x : ℚ) : ℚ :=
  let y := x * 100
  let f : ℤ := ⌊y⌋
  let n : ℤ :=
    if y - (f : ℚ) < 1/2 then f
    else if (1 : ℚ)/2 < y - (f : ℚ) then f + 1
    else if f % 2 = 0 then f else f + 1
  (n : ℚ) / 100

/-- Source line 107: `lower_step = round((selected_height // 0.5) * 0.5, 2)`;
Python's `//` on floats is `floor` of the true quotient. -/
def lower_step (h : ℚ) : ℚ := pyRound2 ((⌊h / (1/2 : ℚ)⌋ : ℚ) * (1/2))

/-- Source line 108: `upper_step = round(min(lower_step + 0.5, 8.5), 2)`. -/
def upper_step (h : ℚ) : ℚ := pyRound2 (min (lower_step h + 1/2) (17/2))

/-- The interpolation block of `app.py` lines 107-116: look up the two
step keys in the calibration table (a missing key is Python's
`KeyError`, i.e. a `LookupError`, modelled as `none`) and linearly
interpolate between the two volumes. -/
def interpolate (h : ℚ) : Option ℚ :=
  (dictGet HEIGHT_VOLUME (lower_step h)).bind fun lower_volume =>
    (dictGet HEIGHT_VOLUME (upper_step h)).map fun upper_volume =>
      if upper_step h = lower_step h then
        lower_volume
      else
        lower_volume + (upper_volume - lower_volume) * ((h - lower_step h) / (1/2))

/-- A validated pair of coordinates (the first two fields of the
spec's Reading), as produced by the range check of lines 90-97. -/
structure Reading where
  relative_height : ℚ
  absolute_height : ℚ
deriving DecidableEq, Repr

/-- Outcome of the range check (lines 89-102): either a valid Reading,
or a RangeError whose flag records whether the user-facing error
message is displayed (`if user_input > 0`, line 100). -/
inductive NormResult where
  | ok (r : Reading)
  | rangeError (showMessage : Bool)
deriving DecidableEq, Repr

/-- Holds exactly when the range check rejected the input. -/
def NormResult.isRangeError : NormResult → Bool
  | .ok _ => false
  | .rangeError _ => true

/-- The range check / unit disambiguation of `app.py` lines 89-102. -/
def normalize (user_input : ℚ) : NormResult :=
  if 0 ≤ user_input ∧ user_input ≤ MAX_RELATIVE_HEIGHT then
    .ok ⟨user_input, SEA_LEVEL_ZERO + user_input⟩
  else if SEA_LEVEL_ZERO ≤ user_input ∧ user_input ≤ MAX_ABSOLUTE_HEIGHT then
    .ok ⟨user_input - SEA_LEVEL_ZERO, user_input⟩
  else
    .rangeError (decide (0 < user_input))

/-- The spec's full Reading: relative height, absolute height and
interpolated volume, all derived from one raw input. -/
structure FullReading where
  relative_height : ℚ
  absolute_height : ℚ
  volume : ℚ
deriving DecidableEq, Repr

/-- The fused pipeline `normalize` then `interpolate` (lines 89-116):
the complete Reading for a raw input, or `none` on rejection. -/
def process (user_input : ℚ) : Option FullReading :=
  match normalize user_input with
  | .ok r => (interpolate r.relative_height).map
      (fun v => ⟨r.relative_height, r.absolute_height, v⟩)
  | .rangeError _ => none

/-! ### Auxiliary characterisations -/

/-- The calibration volumes in step order; `tableVal k` is the volume at
relative height `k/2`. -/
def volList : List ℚ :=
  [0, 4027, 11655, 27344, 53448, 88216, 126617, 166744, 208327, 251136,
   295066, 340074, 386135, 433278, 481569, 531074, 581888, 634177]

/-- Volume at step `k` (height `k/2`); clamps to the last entry. -/
def tableVal (k : ℕ) : ℚ := volList.getD k 634177

/-- Rounding to two decimals is the identity on half-integers. -/
theorem pyRound2_int_half (k : ℤ) : pyRound2 ((k : ℚ)/2) = (k : ℚ)/2 := by
  have h1 : ((k : ℚ)/2) * 100 = ((50 * k : ℤ) : ℚ) := by push_cast; ring
  rw [pyRound2]
  simp only [h1, Int.floor_intCast, sub_self]
  norm_num
  ring

/-- The lower step key is `⌊2h⌋ / 2`. -/
theorem lower_step_eq (h : ℚ) : lower_step h = (⌊2 * h⌋ : ℚ)/2 := by
  have h1 : h / (1/2 : ℚ) = 2 * h := by ring
  have h2 : (⌊2 * h⌋ : ℚ) * (1/2) = (⌊2 * h⌋ : ℚ)/2 := by ring
  rw [lower_step, h1, h2, pyRound2_int_half]

/-- The upper step key is `min (⌊2h⌋ + 1) 17 / 2`. -/
theorem upper_step_eq (h : ℚ) :
    upper_step h = ((min (⌊2 * h⌋ + 1) 17 : ℤ) : ℚ)/2 := by
  have h1 : lower_step h + 1/2 = ((⌊2 * h⌋ + 1 : ℤ) : ℚ)/2 := by
    rw [lower_step_eq]; push_cast; ring
  have h2 : min (((⌊2 * h⌋ + 1 : ℤ) : ℚ)/2) (17/2)
      = ((min (⌊2 * h⌋ + 1) 17 : ℤ) : ℚ)/2 := by
    rcases le_total (⌊2 * h⌋ + 1 : ℤ) 17 with hle | hle
    · rw [min_eq_left, min_eq_left hle]
      have : ((⌊2 * h⌋ + 1 : ℤ) : ℚ) ≤ 17 := by exact_mod_cast hle
      linarith
    · have h3 : (17 : ℚ) ≤ ((⌊2 * h⌋ + 1 : ℤ) : ℚ) := by exact_mod_cast hle
      rw [min_eq_right (by linarith : (17 : ℚ)/2 ≤ ((⌊2 * h⌋ + 1 : ℤ) : ℚ)/2),
        min_eq_right hle]
      norm_num
  rw [upper_step, h1, h2, pyRound2_int_half]

/-- Dictionary lookup at each in-range step key returns the table value. -/
theorem dictGet_step (k : ℤ) (hk0 : 0 ≤ k) (hk17 : k ≤ 17) :
    dictGet HEIGHT_VOLUME ((k : ℚ)/2) = some (tableVal k.toNat) := by
  interval_cases k <;> norm_num [dictGet, HEIGHT_VOLUME, tableVal, volList] <;> rfl

/-- The total interpolation function: what the code computes on any
accepted relative height (proved by `interpolate_eq_ivol`). -/
def ivol (h : ℚ) : ℚ :=
  if 17 ≤ ⌊2 * h⌋ then tableVal 17
  else
    tableVal (⌊2 * h⌋).toNat
      + (tableVal ((⌊2 * h⌋).toNat + 1) - tableVal (⌊2 * h⌋).toNat)
        * (2 * h - (⌊2 * h⌋ : ℚ))

/-- Floor of twice an accepted height is nonnegative. -/
theorem floor_two_nonneg (h : ℚ) (h0 : 0 ≤ h) : 0 ≤ ⌊2 * h⌋ :=
  Int.floor_nonneg.mpr (by linarith)

/-- Floor of twice an accepted height is at most 17. -/
theorem floor_two_le (h : ℚ) (h17 : h ≤ 17/2) : ⌊2 * h⌋ ≤ 17 := by
  have h1 : ⌊(2 * h : ℚ)⌋ ≤ ⌊(17 : ℚ)⌋ := Int.floor_le_floor (by linarith)
  simpa using h1

/-- On the accepted range, the code's interpolation block succeeds and
computes `ivol`. -/
theorem interpolate_eq_ivol (h : ℚ) (h0 : 0 ≤ h) (h17 : h ≤ 17/2) :
    interpolate h = some (ivol h) := by
  have hk0 : 0 ≤ ⌊2 * h⌋ := floor_two_nonneg h h0
  have hk17 : ⌊2 * h⌋ ≤ 17 := floor_two_le h h17
  rcases eq_or_lt_of_le hk17 with hk | hk
  · have hlow : lower_step h = ((17 : ℤ) : ℚ)/2 := by rw [lower_step_eq, hk]
    have hup : upper_step h = ((17 : ℤ) : ℚ)/2 := by
      rw [upper_step_eq, hk]; norm_num
    have hget : dictGet HEIGHT_VOLUME (((17 : ℤ) : ℚ)/2) = some (tableVal 17) := by
      have := dictGet_step 17 (by norm_num) le_rfl
      simpa using this
    rw [interpolate]
    simp only [hlow, hup, hget, Option.some_bind, Option.map_some, if_pos rfl]
    rw [ivol, if_pos (le_of_eq hk.symm)]
    simp
  · have hk16 : ⌊2 * h⌋ ≤ 16 := by omega
    have hmin : min (⌊2 * h⌋ + 1) 17 = ⌊2 * h⌋ + 1 := min_eq_left (by omega)
    have hlow : lower_step h = ((⌊2 * h⌋ : ℤ) : ℚ)/2 := lower_step_eq h
    have hup : upper_step h = ((⌊2 * h⌋ + 1 : ℤ) : ℚ)/2 := by
      rw [upper_step_eq, hmin]
    have hgl : dictGet HEIGHT_VOLUME ((( ⌊2 * h⌋ : ℤ) : ℚ)/2)
        = some (tableVal (⌊2 * h⌋).toNat) := dictGet_step _ hk0 hk17
    have hgu : dictGet HEIGHT_VOLUME ((( ⌊2 * h⌋ + 1 : ℤ) : ℚ)/2)
        = some (tableVal (⌊2 * h⌋ + 1).toNat) := dictGet_step _ (by omega) (by omega)
    have hne : ((⌊2 * h⌋ + 1 : ℤ) : ℚ)/2 ≠ ((⌊2 * h⌋ : ℤ) : ℚ)/2 := by
      intro heq
      have h2 : ((⌊2 * h⌋ + 1 : ℤ) : ℚ) = ((⌊2 * h⌋ : ℤ) : ℚ) := by linarith
      have h3 : (⌊2 * h⌋ + 1 : ℤ) = ⌊2 * h⌋ := by exact_mod_cast h2
      omega
    have htn : (⌊2 * h⌋ + 1).toNat = (⌊2 * h⌋).toNat + 1 := by omega
    rw [interpolate]
    simp only [hlow, hup, hgl, hgu, Option.some_bind, Option.map_some, if_neg hne]
    rw [ivol, if_neg (by omega), htn]
    have hfrac : (h - ((⌊2 * h⌋ : ℤ) : ℚ)/2) / (1/2) = 2 * h - (⌊2 * h⌋ : ℚ) := by
      ring
    rw [hfrac]
    simp

/-- Past the last step the table value is the final volume. -/
theorem tableVal_of_ge (n : ℕ) (hn : 17 ≤ n) : tableVal n = 634177 := by
  rcases eq_or_lt_of_le hn with h | h
  · rw [tableVal, ← h]
    rfl
  · rw [tableVal, List.getD_eq_default]
    show volList.length ≤ n
    simpa [volList] using h

/-- Consecutive table values are non-decreasing. -/
theorem tableVal_succ_le (n : ℕ) : tableVal n ≤ tableVal (n + 1) := by
  by_cases hn : n ≤ 16
  · interval_cases n <;> norm_num [tableVal, volList]
  · rw [tableVal_of_ge n (by omega), tableVal_of_ge (n + 1) (by omega)]

/-- The calibration volumes are monotone in the step index. -/
theorem tableVal_mono : Monotone tableVal :=
  monotone_nat_of_le_succ tableVal_succ_le

/-- Lower bound: `ivol h` is at least the table value at its lower step. -/
theorem ivol_lb (h : ℚ) : tableVal (⌊2 * h⌋).toNat ≤ ivol h := by
  rw [ivol]
  by_cases hk : 17 ≤ ⌊2 * h⌋
  · rw [if_pos hk, tableVal_of_ge ((⌊2 * h⌋).toNat) (by omega),
      tableVal_of_ge 17 le_rfl]
  · rw [if_neg hk]
    have hd : 0 ≤ tableVal ((⌊2 * h⌋).toNat + 1) - tableVal (⌊2 * h⌋).toNat := by
      have := tableVal_succ_le (⌊2 * h⌋).toNat
      linarith
    have ht : (0 : ℚ) ≤ 2 * h - (⌊2 * h⌋ : ℚ) := by
      have := Int.floor_le (2 * h)
      linarith
    nlinarith

/-- Upper bound: `ivol h` is at most the table value at its upper step. -/
theorem ivol_ub (h : ℚ) (hk16 : ⌊2 * h⌋ ≤ 16) :
    ivol h ≤ tableVal ((⌊2 * h⌋).toNat + 1) := by
  rw [ivol, if_neg (by omega)]
  have hd : 0 ≤ tableVal ((⌊2 * h⌋).toNat + 1) - tableVal (⌊2 * h⌋).toNat := by
    have := tableVal_succ_le (⌊2 * h⌋).toNat
    linarith
  have ht : 2 * h - (⌊2 * h⌋ : ℚ) ≤ 1 := by
    have := Int.lt_floor_add_one (2 * h)
    push_cast at this ⊢
    linarith
  nlinarith

/-- Monotonicity of `ivol` on the accepted range. -/
theorem ivol_mono (h1 h2 : ℚ) (h0 : 0 ≤ h1) (hlt : h1 < h2) (h17 : h2 ≤ 17/2) :
    ivol h1 ≤ ivol h2 := by
  have hk1le : ⌊2 * h1⌋ ≤ 16 := by
    have : (2 * h1 : ℚ) < 17 := by linarith
    have := Int.floor_lt.mpr (by push_cast; linarith : (2 * h1 : ℚ) < ((17 : ℤ) : ℚ))
    omega
  have hk10 : 0 ≤ ⌊2 * h1⌋ := floor_two_nonneg h1 h0
  have hk2le : ⌊2 * h2⌋ ≤ 17 := floor_two_le h2 h17
  have hk12 : ⌊2 * h1⌋ ≤ ⌊2 * h2⌋ := Int.floor_le_floor (by linarith)
  rcases eq_or_lt_of_le hk12 with hkeq | hklt
  · have hk2 : ⌊2 * h2⌋ ≤ 16 := by omega
    rw [ivol, if_neg (by omega), ivol, if_neg (by omega), ← hkeq]
    have hd : 0 ≤ tableVal ((⌊2 * h1⌋).toNat + 1) - tableVal (⌊2 * h1⌋).toNat := by
      have := tableVal_succ_le (⌊2 * h1⌋).toNat
      linarith
    nlinarith
  · have hub : ivol h1 ≤ tableVal ((⌊2 * h1⌋).toNat + 1) := ivol_ub h1 hk1le
    have hlb : tableVal (⌊2 * h2⌋).toNat ≤ ivol h2 := ivol_lb h2
    have hmid : tableVal ((⌊2 * h1⌋).toNat + 1) ≤ tableVal (⌊2 * h2⌋).toNat :=
      tableVal_mono (by omega)
    linarith

/-! ### Helper characterisations of `normalize` and `process` -/

/-- Relative branch of the range check. -/
theorem norm_rel_eq (h : ℚ) (h0 : 0 ≤ h) (h85 : h ≤ 17/2) :
    normalize h = .ok ⟨h, h + 50⟩ := by
  rw [normalize, if_pos]
  · rw [SEA_LEVEL_ZERO, add_comm]
  · exact ⟨h0, by rw [MAX_RELATIVE_HEIGHT]; exact h85⟩

/-- Absolute branch of the range check. -/
theorem norm_abs_eq (a : ℚ) (h50 : 50 ≤ a) (h585 : a ≤ 117/2) :
    normalize a = .ok ⟨a - 50, a⟩ := by
  rw [normalize, if_neg, if_pos]
  · simp [SEA_LEVEL_ZERO]
  · constructor
    · rw [SEA_LEVEL_ZERO]; exact h50
    · rw [MAX_ABSOLUTE_HEIGHT, SEA_LEVEL_ZERO, MAX_RELATIVE_HEIGHT]; linarith
  · rintro ⟨-, hle⟩
    rw [MAX_RELATIVE_HEIGHT] at hle
    linarith

/-- Else branch of the range check: rejection, message iff positive. -/
theorem norm_rej_eq (x : ℚ)
    (hw1 : ¬ (0 ≤ x ∧ x ≤ 17/2)) (hw2 : ¬ (50 ≤ x ∧ x ≤ 117/2)) :
    normalize x = .rangeError (decide (0 < x)) := by
  rw [normalize, if_neg, if_neg]
  · rw [SEA_LEVEL_ZERO, MAX_ABSOLUTE_HEIGHT, SEA_LEVEL_ZERO, MAX_RELATIVE_HEIGHT]
    intro hc
    exact hw2 ⟨hc.1, by linarith [hc.2]⟩
  · rw [MAX_RELATIVE_HEIGHT]
    exact hw1

/-- On the relative window the full pipeline produces the Reading
`⟨x, x + 50, ivol x⟩`. -/
theorem process_rel_eq (x : ℚ) (h0 : 0 ≤ x) (h85 : x ≤ 17/2) :
    process x = some ⟨x, x + 50, ivol x⟩ := by
  rw [process, norm_rel_eq x h0 h85]
  show (interpolate x).map _ = _
  rw [interpolate_eq_ivol x h0 h85]
  rfl

/-- Evaluation of `ivol` at an exact step key: the stored table value. -/
theorem ivol_step (k : ℤ) (hk0 : 0 ≤ k) (hk17 : k ≤ 17) :
    ivol ((k : ℚ)/2) = tableVal k.toNat := by
  have hfl : ⌊2 * ((k : ℚ)/2)⌋ = k := by
    have h2 : (2 : ℚ) * ((k : ℚ)/2) = (k : ℚ) := by ring
    rw [h2, Int.floor_intCast]
  rw [ivol, hfl]
  by_cases h17 : 17 ≤ k
  · rw [if_pos h17]
    have hk : k = 17 := le_antisymm hk17 h17
    subst hk
    rfl
  · rw [if_neg h17]
    have hz : (2 : ℚ) * ((k : ℚ)/2) - (k : ℚ) = 0 := by ring
    rw [hz, mul_zero, add_zero]

/-- Evaluation of `interpolate` at an exact step key: the stored table value. -/
theorem interpolate_at_half (k : ℤ) (hk0 : 0 ≤ k) (hk17 : k ≤ 17) :
    interpolate ((k : ℚ)/2) = some (tableVal k.toNat) := by
  have hq0 : (0 : ℚ) ≤ (k : ℚ) := by exact_mod_cast hk0
  have hq17 : (k : ℚ) ≤ 17 := by exact_mod_cast hk17
  rw [interpolate_eq_ivol _ (by linarith) (by linarith), ivol_step k hk0 hk17]

/-- Evaluation of `ivol` at 6.4: the interpolated volume is 423849.4. -/
theorem ivol_64 : ivol (32/5) = 2119247/5 := by
  have h1 : tableVal (Int.toNat 12) = 386135 := rfl
  have h2 : tableVal (Int.toNat 12 + 1) = 433278 := rfl
  rw [ivol]
  norm_num [h1, h2]

/-- Evaluation of `interpolate` at 6.4. -/
theorem interpolate_64 : interpolate (32/5) = some (2119247/5) := by
  rw [interpolate_eq_ivol _ (by norm_num) (by norm_num), ivol_64]

/-- Evaluation of `interpolate` at the table maximum 8.5. -/
theorem interpolate_85 : interpolate (17/2) = some 634177 := by
  have h17 : tableVal (Int.toNat 17) = 634177 := rfl
  have h := interpolate_at_half 17 (by norm_num) (by norm_num)
  rw [h17] at h
  norm_num at h
  exact h

/-! ### The claims -/

/-- Claim C1: for every raw input in `[0, 8.5]`, `normalize` accepts it
as a relative height, with `relative_height` equal to the raw input and
`absolute_height` equal to the raw input plus the datum offset 50. -/
theorem claim_relative_window (h : ℚ) (h0 : 0 ≤ h) (h85 : h ≤ 17/2) :
    normalize h = .ok ⟨h, h + 50⟩ :=
  norm_rel_eq h h0 h85

/-- Witness for C1 at the raw input 6.4. -/
theorem claim_relative_window_witness :
    normalize (32/5) = .ok ⟨32/5, 32/5 + 50⟩ :=
  claim_relative_window (32/5) (by norm_num) (by norm_num)

/-- Claim C2: for every raw input in `[50, 58.5]`, `normalize` accepts
it as an absolute height, with `absolute_height` equal to the raw input
and `relative_height` equal to the raw input minus 50. -/
theorem claim_absolute_window (a : ℚ) (h50 : 50 ≤ a) (h585 : a ≤ 117/2) :
    normalize a = .ok ⟨a - 50, a⟩ :=
  norm_abs_eq a h50 h585

/-- Witness for C2 at the raw input 56.4. -/
theorem claim_absolute_window_witness :
    normalize (282/5) = .ok ⟨282/5 - 50, 282/5⟩ :=
  claim_absolute_window (282/5) (by norm_num) (by norm_num)

/-- Claim C3: every raw input lying in neither window `[0, 8.5]` nor
`[50, 58.5]` is rejected with a RangeError and no Reading is
produced. -/
theorem claim_reject_outside_windows (x : ℚ)
    (hw1 : ¬ (0 ≤ x ∧ x ≤ 17/2)) (hw2 : ¬ (50 ≤ x ∧ x ≤ 117/2)) :
    (normalize x).isRangeError = true := by
  rw [norm_rej_eq x hw1 hw2]
  rfl

/-- Witness for C3 at the four boundary inputs -0.01, 8.51, 49.99
and 58.51. -/
theorem claim_reject_outside_windows_witness :
    (normalize (-1/100)).isRangeError = true
      ∧ (normalize (851/100)).isRangeError = true
      ∧ (normalize (4999/100)).isRangeError = true
      ∧ (normalize (5851/100)).isRangeError = true :=
  ⟨claim_reject_outside_windows (-1/100) (by norm_num) (by norm_num),
   claim_reject_outside_windows (851/100) (by norm_num) (by norm_num),
   claim_reject_outside_windows (4999/100) (by norm_num) (by norm_num),
   claim_reject_outside_windows (5851/100) (by norm_num) (by norm_num)⟩

/-- Claim C4: every Reading produced by `normalize` satisfies
`absolute_height = relative_height + 50` exactly. -/
theorem claim_datum_invariant (x : ℚ) (r : Reading)
    (hr : normalize x = .ok r) :
    r.absolute_height = r.relative_height + 50 := by
  rw [normalize] at hr
  split_ifs at hr with h1 h2
  · cases hr
    rw [SEA_LEVEL_ZERO]
    ring
  · cases hr
    rw [SEA_LEVEL_ZERO]
    ring

/-- Witness for C4 at the raw input 6.4. -/
theorem claim_datum_invariant_witness :
    (Reading.mk (32/5) (32/5 + 50)).absolute_height
      = (Reading.mk (32/5) (32/5 + 50)).relative_height + 50 :=
  claim_datum_invariant (32/5) ⟨32/5, 32/5 + 50⟩
    (norm_rel_eq (32/5) (by norm_num) (by norm_num))

/-- Claim C5: for every relative height in `[0, 8.5]` (any value
accepted by `normalize`), both computed step keys are present in the
calibration table, so the lookups in `interpolate` never fail. -/
theorem claim_lookup_total (h : ℚ) (h0 : 0 ≤ h) (h85 : h ≤ 17/2) :
    (dictGet HEIGHT_VOLUME (lower_step h)).isSome = true
      ∧ (dictGet HEIGHT_VOLUME (upper_step h)).isSome = true
      ∧ (interpolate h).isSome = true := by
  have hk0 := floor_two_nonneg h h0
  have hk17 := floor_two_le h h85
  refine ⟨?_, ?_, ?_⟩
  · rw [lower_step_eq, dictGet_step _ hk0 hk17]
    rfl
  · rw [upper_step_eq, dictGet_step _ (by omega) (by omega)]
    rfl
  · rw [interpolate_eq_ivol h h0 h85]
    rfl

/-- Witness for C5 at the relative height 6.4. -/
theorem claim_lookup_total_witness :
    (dictGet HEIGHT_VOLUME (lower_step (32/5))).isSome = true
      ∧ (dictGet HEIGHT_VOLUME (upper_step (32/5))).isSome = true
      ∧ (interpolate (32/5)).isSome = true :=
  claim_lookup_total (32/5) (by norm_num) (by norm_num)

/-- Claim C6: at every calibration step key (0.0, 0.5, …, 8.5),
`interpolate` returns the table's stored volume exactly. -/
theorem claim_exact_on_steps (p : ℚ × ℚ) (hp : p ∈ HEIGHT_VOLUME) :
    interpolate p.1 = some p.2 := by
  fin_cases hp <;>
    norm_num [interpolate_eq_ivol, ivol, tableVal, volList] <;> rfl

/-- Witness for C6 at the step key 6.5. -/
theorem claim_exact_on_steps_witness :
    interpolate (13/2) = some 433278 :=
  claim_exact_on_steps (13/2, 433278) (by norm_num [HEIGHT_VOLUME])

/-- Claim C7: `interpolate` is monotone on `[0, 8.5]`: a strictly
larger accepted height never yields a smaller volume. -/
theorem claim_monotone (h1 h2 : ℚ) (h0 : 0 ≤ h1) (hlt : h1 < h2)
    (h85 : h2 ≤ 17/2) (v1 v2 : ℚ)
    (e1 : interpolate h1 = some v1) (e2 : interpolate h2 = some v2) :
    v1 ≤ v2 := by
  rw [interpolate_eq_ivol h1 h0 (le_of_lt (lt_of_lt_of_le hlt h85))] at e1
  rw [interpolate_eq_ivol h2 (by linarith) h85] at e2
  obtain rfl := Option.some.inj e1
  obtain rfl := Option.some.inj e2
  exact ivol_mono h1 h2 h0 hlt h85

/-- Witness for C7: the volume at 6.4 is at most the volume at 8.5. -/
theorem claim_monotone_witness : (2119247/5 : ℚ) ≤ 634177 :=
  claim_monotone (32/5) (17/2) (by norm_num) (by norm_num) (by norm_num)
    (2119247/5) 634177 interpolate_64 interpolate_85

/-- Counterexample for C8: at the raw input 6.4 the computed volume is
not 423799.6 (the claim's arithmetic is wrong: 386135 + 47143 × 0.8 =
423849.4). -/
theorem claim_scenario_64_false :
    ¬ ((process (32/5)).map FullReading.volume = some (2118998/5)) := by
  intro hc
  rw [process_rel_eq (32/5) (by norm_num) (by norm_num), ivol_64] at hc
  simp at hc
  norm_num at hc

/-- Claim C8 (amended): for the input 6.4 the computation yields
relative 6.4, absolute 56.4, lower step 6.0 with volume 386135, upper
step 6.5 with volume 433278, fraction 0.8, and volume
386135 + (433278 - 386135) × 0.8 = 423849.4. -/
theorem claim_scenario_64_amended :
    lower_step (32/5) = 6
      ∧ dictGet HEIGHT_VOLUME 6 = some 386135
      ∧ upper_step (32/5) = 13/2
      ∧ dictGet HEIGHT_VOLUME (13/2) = some 433278
      ∧ (32/5 - lower_step (32/5)) / (1/2 : ℚ) = 4/5
      ∧ process (32/5) = some ⟨32/5, 282/5, 2119247/5⟩ := by
  have hf : ⌊2 * (32/5 : ℚ)⌋ = 12 := by norm_num
  have hl : lower_step (32/5) = 6 := by
    rw [lower_step_eq, hf]
    norm_num
  have hu : upper_step (32/5) = 13/2 := by
    rw [upper_step_eq, hf, min_eq_left (by norm_num : (12 + 1 : ℤ) ≤ 17)]
    norm_num
  refine ⟨hl, by norm_num [dictGet, HEIGHT_VOLUME], hu,
    by norm_num [dictGet, HEIGHT_VOLUME], by rw [hl]; norm_num, ?_⟩
  rw [process_rel_eq (32/5) (by norm_num) (by norm_num), ivol_64]
  norm_num

/-- Claim C9: the absolute form of an accepted height produces the
identical Reading: for every `h` in `[0, 8.5]`, processing `h + 50`
equals processing `h`. -/
theorem claim_absolute_form_agrees (h : ℚ) (h0 : 0 ≤ h) (h85 : h ≤ 17/2) :
    process (h + 50) = process h := by
  rw [process, process,
    norm_rel_eq h h0 h85, norm_abs_eq (h + 50) (by linarith) (by linarith)]
  have hsimp : h + 50 - 50 = h := by ring
  rw [hsimp]

/-- Witness for C9: input 56.4 yields the same Reading as input 6.4. -/
theorem claim_absolute_form_agrees_witness :
    process (32/5 + 50) = process (32/5) :=
  claim_absolute_form_agrees (32/5) (by norm_num) (by norm_num)

/-- Claim C10: an invalid input (outside both windows) is always
rejected, and the range-error message flag is set exactly when the
input is strictly greater than 0; non-positive invalid inputs are
rejected silently. -/
theorem claim_error_message_guard (x : ℚ)
    (hw1 : ¬ (0 ≤ x ∧ x ≤ 17/2)) (hw2 : ¬ (50 ≤ x ∧ x ≤ 117/2)) :
    normalize x = .rangeError (decide (0 < x)) :=
  norm_rej_eq x hw1 hw2

/-- Witness for C10: the negative invalid input -0.01 is rejected
silently, while the positive invalid input 9 is rejected with the
message shown. -/
theorem claim_error_message_guard_witness :
    normalize (-1/100) = .rangeError false ∧ normalize 9 = .rangeError true := by
  constructor
  · have h := claim_error_message_guard (-1/100) (by norm_num) (by norm_num)
    rw [h]
    norm_num
  · have h := claim_error_message_guard 9 (by norm_num) (by norm_num)
    rw [h]
    norm_num

end Reservoir
